import Mathlib

/-!
Verification of the vocabulary-transplant algorithm of `transplant_vocab.py`.

The algorithmic core of the program is embedded shallowly:

* tensor rows are modelled as functions `ℕ → ℚ` (the program's elementwise
  tensor arithmetic becomes pointwise rational arithmetic; exact arithmetic
  stands in for the float formulas, which both the code and the spec state
  identically);
* the two tokenizers are black-box capabilities `decode : ℕ → String` and
  `encode : String → List ℕ`, exactly the interface the program uses;
* the per-token transplant loop (source lines 289-315) is a fold over
  `List.range used_target_vocab_size` carrying the mutable state the loop
  updates (both output matrices and the statistics counters);
* the configuration extraction (source lines 163-182), the manual-override
  validation (lines 236-256) and the automatic special-token alignment
  (lines 206-233) are embedded as total functions returning explicit
  error/skip outcomes where the program raises or prints a skip.

Where the Python would raise on an empty donor-id sequence (`encoded[-1]` on
an empty tensor), the embedding totalises with a default and the theorems
carry an explicit non-emptiness hypothesis instead.
-/

namespace TransplantVocab

/-- A tensor row, indexed pointwise. -/
def Vec : Type := ℕ → ℚ

/-- The all-zero row (`torch.zeros`). -/
def vzero : Vec := fun _ => 0

/-- Scalar multiplication of a row (broadcast `decay_powers * v`). -/
def vsmul (c : ℚ) (v : Vec) : Vec := fun j => c * v j

/-- Division of a row by a scalar. -/
def vdiv (v : Vec) (c : ℚ) : Vec := fun j => v j / c

/-- Sum of a list of rows (`torch.sum(·, dim = 0)`). -/
def vsum (l : List Vec) : Vec := fun j => (l.map (fun v => v j)).sum

/-- Arithmetic mean of a list of rows (`torch.mean(·, dim = 0)`). -/
def vmean (l : List Vec) : Vec := vdiv (vsum l) (l.length : ℚ)

/-- `compute_front_loaded_mean` (source lines 122-153): the front-loaded
exponentially weighted mean of the rows of `v` with decay factor
`weighting_decay_factor`. -/
def compute_front_loaded_mean (v : List Vec) (weighting_decay_factor : ℚ) : Vec :=
  if v.length = 1 ∨ weighting_decay_factor = 0 then
    v.headD vzero
  else if weighting_decay_factor = 1 then
    vmean v
  else
    let decay_powers := (List.range v.length).map (fun i => weighting_decay_factor ^ i)
    let weighted_sum := vsum ((decay_powers.zip v).map (fun p => vsmul p.1 p.2))
    let denominator := decay_powers.sum
    vdiv weighted_sum denominator

/-! ## Configuration extraction (source lines 163-182) -/

/-- The `text_config` sub-configuration: presence of the two size fields. -/
structure TextConfig where
  vocab_size : Option ℕ
  hidden_size : Option ℕ

/-- A model `config.json`, restricted to the fields the extraction reads. -/
structure ModelConfig where
  vocab_size : Option ℕ
  hidden_size : Option ℕ
  text_config : Option TextConfig
  tie_word_embeddings : Option Bool

/-- `donor_config.get("tie_word_embeddings", False)` (source line 261). -/
def donorTied (cfg : ModelConfig) : Bool := cfg.tie_word_embeddings.getD false

/-- Donor size extraction, source lines 163-175 followed by the first read of
`donor_hidden_size` at the size report (line 201).  Returns the pair
`(donor_vocab_size, donor_hidden_size)` as the program leaves them, or the
error the program raises.  Note that on the nested-`hidden_size` path the
source (line 172) assigns the nested `hidden_size` to `donor_vocab_size` and
never binds `donor_hidden_size`, so the first read of `donor_hidden_size`
raises `NameError`. -/
def donorSizes (cfg : ModelConfig) : Except String (ℕ × ℕ) := do
  -- lines 163-168: donor_vocab_size
  let donor_vocab_size : ℕ ←
    match cfg.text_config.bind TextConfig.vocab_size with
    | some v => Except.ok v
    | none =>
      match cfg.vocab_size with
      | some v => Except.ok v
      | none => Except.error "AssertionError: vocab_size not found in source model config"
  -- lines 170-175: donor hidden size; the nested branch overwrites
  -- donor_vocab_size with the nested hidden_size (the overwritten value is
  -- unobservable because the unbound donor_hidden_size aborts the run first)
  match cfg.text_config.bind TextConfig.hidden_size with
  | some _ =>
    Except.error "NameError: name donor_hidden_size is not defined"
  | none =>
    match cfg.hidden_size with
    | some h => Except.ok (donor_vocab_size, h)
    | none => Except.error "AssertionError: hidden_size not found in source model config"

/-- Target vocabulary size extraction, source lines 177-182. -/
def targetVocabSizeOf (cfg : ModelConfig) : Except String ℕ :=
  match cfg.text_config.bind TextConfig.vocab_size with
  | some v => Except.ok v
  | none =>
    match cfg.vocab_size with
    | some v => Except.ok v
    | none => Except.error "AssertionError: vocab_size not found in target model config"

/-! ## The transplant pass (source lines 259-315) -/

/-- All inputs the per-token loop consumes: the declared and used target
vocabulary sizes, the donor matrices, the two tokenizer capabilities, the
override registry and the decay factor. -/
structure TransplantInput where
  targetVocabSize : ℕ
  usedTargetVocabSize : ℕ
  donorEmbed : ℕ → Vec
  donorHead : ℕ → Vec
  targetDecode : ℕ → String
  donorEncode : String → List ℕ
  overrideMap : ℕ → Option (List ℕ)
  decay : ℚ

/-- The donor-id sequence used for target id `idx` (source lines 290-294):
the override registry entry when present, otherwise the donor re-encoding of
the target surface text. -/
def mapping (inp : TransplantInput) (idx : ℕ) : List ℕ :=
  match inp.overrideMap idx with
  | some encoded => encoded
  | none => inp.donorEncode (inp.targetDecode idx)

/-- The state the loop mutates: both output matrices (zero-initialised,
source lines 264-273), the mapping-cardinality histogram (`mapping_counts`;
an absent dictionary key is modelled as count 0) and the two head counters. -/
structure PassState where
  embed : ℕ → Vec
  head : ℕ → Vec
  counts : ℕ → ℕ
  copyCount : ℕ
  meanCount : ℕ

/-- The state before the loop (source lines 264-280). -/
def initState : PassState :=
  { embed := fun _ => vzero
    head := fun _ => vzero
    counts := fun _ => 0
    copyCount := 0
    meanCount := 0 }

/-- The input-embedding row written for target id `idx` (source line 306):
the donor embedding of the last id of the mapping.  `encoded[-1]` on an
empty tensor would raise; the default of `getLastD` is never reached under
the non-emptiness hypotheses of the theorems below. -/
def embedRowOf (inp : TransplantInput) (idx : ℕ) : Vec :=
  inp.donorEmbed ((mapping inp idx).getLastD 0)

/-- The head row written for target id `idx` (source lines 309-314): a plain
copy for a single-id mapping, otherwise the front-loaded mean of the donor
head rows of the mapping. -/
def headRowOf (inp : TransplantInput) (idx : ℕ) : Vec :=
  if (mapping inp idx).length = 1 then
    inp.donorHead ((mapping inp idx).headD 0)
  else
    compute_front_loaded_mean ((mapping inp idx).map inp.donorHead) inp.decay

/-- One iteration of the transplant loop (source lines 289-315) on state
`st` at target id `idx`. -/
def stepBody (inp : TransplantInput) (st : PassState) (idx : ℕ) : PassState :=
  let encoded := mapping inp idx
  { embed := fun i => if i = idx then embedRowOf inp idx else st.embed i
    head := fun i => if i = idx then headRowOf inp idx else st.head i
    counts := fun L => if L = encoded.length then st.counts L + 1 else st.counts L
    copyCount := if encoded.length = 1 then st.copyCount + 1 else st.copyCount
    meanCount := if encoded.length = 1 then st.meanCount else st.meanCount + 1 }

/-- The whole transplant pass: the loop over
`range(used_target_vocab_size)`. -/
def runPass (inp : TransplantInput) : PassState :=
  (List.range inp.usedTargetVocabSize).foldl (stepBody inp) initState

/-- Untying of the donor head (source line 261): models with
`tie_word_embeddings = True` reuse the input-embedding matrix as the head
matrix. -/
def donorLmHeadOf (tied : Bool) (embed_tokens lm_head : ℕ → Vec) : ℕ → Vec :=
  if tied then embed_tokens else lm_head

/-- Assembles the loop input from the donor model matrices and the tie
flag. -/
def mkTransplantInput (declared used : ℕ) (embedW headW : ℕ → Vec) (tied : Bool)
    (dec : ℕ → String) (enc : String → List ℕ) (om : ℕ → Option (List ℕ)) (d : ℚ) :
    TransplantInput :=
  { targetVocabSize := declared
    usedTargetVocabSize := used
    donorEmbed := embedW
    donorHead := donorLmHeadOf tied embedW headW
    targetDecode := dec
    donorEncode := enc
    overrideMap := om
    decay := d }

/-- The `tie_word_embeddings` field of the saved configuration (source lines
355-357): forced to `false` whenever the field exists, untouched (absent)
otherwise. -/
def outputTieFlag (tie_field : Option Bool) : Option Bool :=
  match tie_field with
  | some _ => some false
  | none => none

/-! ## Manual override validation (source lines 236-256) -/

/-- Left-to-right, non-overlapping replacement of the two-character escape
sequence backslash-n by a line feed, on the character list of the donor
string (the `replace("\\n", chr(10))` of source line 247). -/
def replaceEscapedNewlines : List Char → List Char
  | [] => []
  | [c] => [c]
  | c1 :: c2 :: rest =>
    if c1 = '\\' ∧ c2 = 'n' then '\n' :: replaceEscapedNewlines rest
    else c1 :: replaceEscapedNewlines (c2 :: rest)

/-- The newline unescaping applied to the donor override string
(source lines 246-247). -/
def applyNewlineEscapes (s : String) : String :=
  String.mk (replaceEscapedNewlines s.data)

/-- Outcome of processing one manual override pair.  The error cases model
the two `assert` statements of source lines 241 and 251: the first carries
the offending token and its encoding length in its message; the message of
the second interpolates the name `idx`, which is unbound at that point of
`main`, so constructing it raises a `NameError` that carries no override
context. -/
inductive OverrideResult where
  | ok (targetId : ℕ) (donorIds : List ℕ)
  | errTargetNotSingle (targetToken : String) (count : ℕ)
  | errNameError (missingName : String)
deriving DecidableEq

/-- Processing of one manual override pair `(target_token, donor_tokens)`
(source lines 238-254), given the two encode capabilities. -/
def processOverride (targetEncode donorEncode : String → List ℕ)
    (targetToken donorTokens : String) : OverrideResult :=
  let target_id := targetEncode targetToken
  if target_id.length = 1 then
    let donorText := applyNewlineEscapes donorTokens
    let encoded := donorEncode donorText
    if encoded.length ≠ 0 then
      OverrideResult.ok (target_id.headD 0) encoded
    else
      OverrideResult.errNameError "idx"
  else
    OverrideResult.errTargetNotSingle targetToken target_id.length

/-! ## Automatic special-token alignment (source lines 206-233) -/

/-- Where a special-token id of one role can come from, for one side: the
tokenizer attribute (`getattr(tokenizer, token_attr)`) and the raw
configuration value (`config[token_attr]` when the key is present with an
integer value). -/
structure TokSpecial where
  fromTok : Option ℕ
  fromCfg : Option ℕ

/-- Resolution of a role id for one side (source lines 211-218): the
tokenizer attribute, falling back to the configuration value when the
attribute is `None`. -/
def resolveSpecial (s : TokSpecial) : Option ℕ :=
  match s.fromTok with
  | some i => some i
  | none => s.fromCfg

/-- Outcome of one automatic-override role (source lines 221-233): a
registration, or one of the three named, non-fatal skip reasons. -/
inductive AutoResult where
  | registered (targetId donorId : ℕ)
  | alreadyMapped (targetId : ℕ)
  | donorMissing
  | targetMissing
deriving DecidableEq

/-- Processing of one special-token role against the current override
registry (an association list keyed by target id), source lines 209-233.
Returns the new registry and the reported outcome. -/
def autoStep (target donor : TokSpecial) (om : List (ℕ × List ℕ)) :
    List (ℕ × List ℕ) × AutoResult :=
  match resolveSpecial target with
  | none => (om, AutoResult.targetMissing)
  | some target_token_id =>
    match resolveSpecial donor with
    | none => (om, AutoResult.donorMissing)
    | some donor_token_id =>
      if (om.lookup target_token_id).isSome then
        (om, AutoResult.alreadyMapped target_token_id)
      else
        (om ++ [(target_token_id, [donor_token_id])],
          AutoResult.registered target_token_id donor_token_id)

/-- The loop over the three roles bos/eos/pad (source lines 207-233). -/
def processAutoOverrides (roles : List (TokSpecial × TokSpecial))
    (om : List (ℕ × List ℕ)) : List (ℕ × List ℕ) × List AutoResult :=
  match roles with
  | [] => (om, [])
  | r :: rest =>
    let step := autoStep r.1 r.2 om
    let next := processAutoOverrides rest step.1
    (next.1, step.2 :: next.2)

/-! ## Concrete inputs used by the witnesses

The scenario of spec §8: donor vocabulary `a=0, b=1, ab=2`, target
vocabulary `a=0, b=1, c=2`, the donor encoding of `"c"` being `[0, 1]`,
with two declared-but-unused trailing target slots. -/

/-- Donor input-embedding matrix with pairwise distinct rows. -/
def exDonorEmbed : ℕ → Vec := fun r => fun j => (r : ℚ) * 10 + (j : ℚ)

/-- Donor head matrix with pairwise distinct rows. -/
def exDonorHead : ℕ → Vec := fun r => fun j => (r : ℚ) * 100 + (j : ℚ)

/-- Target decode capability of the scenario. -/
def exTargetDecode : ℕ → String := fun i =>
  if i = 0 then "a" else if i = 1 then "b" else "c"

/-- Donor encode capability of the scenario. -/
def exDonorEncode : String → List ℕ := fun s =>
  if s = "a" then [0]
  else if s = "b" then [1]
  else if s = "ab" then [2]
  else if s = "c" then [0, 1]
  else []

/-- The scenario input with an empty override registry. -/
def exampleInput : TransplantInput :=
  { targetVocabSize := 5
    usedTargetVocabSize := 3
    donorEmbed := exDonorEmbed
    donorHead := exDonorHead
    targetDecode := exTargetDecode
    donorEncode := exDonorEncode
    overrideMap := fun _ => none
    decay := 1 / 2 }

/-- The scenario input with target id 2 overridden to the single donor id 2,
although its natural re-encoding would be `[0, 1]`. -/
def exampleOverrideInput : TransplantInput :=
  { exampleInput with overrideMap := fun t => if t = 2 then some [2] else none }

/-- The scenario input with target id 2 overridden to a three-id donor
sequence, giving a three-id mapping for the decay-weight instance of the
spec. -/
def exampleThreeInput : TransplantInput :=
  { exampleInput with overrideMap := fun t => if t = 2 then some [0, 1, 2] else none }

/-- A donor configuration with tied word embeddings. -/
def exTiedConfig : ModelConfig :=
  { vocab_size := some 3
    hidden_size := some 2
    text_config := none
    tie_word_embeddings := some true }

/-! ## Helper lemmas about the pass -/

theorem stepBody_embed (inp : TransplantInput) (st : PassState) (idx i : ℕ) :
    (stepBody inp st idx).embed i = if i = idx then embedRowOf inp idx else st.embed i := rfl

theorem stepBody_head (inp : TransplantInput) (st : PassState) (idx i : ℕ) :
    (stepBody inp st idx).head i = if i = idx then headRowOf inp idx else st.head i := rfl

theorem stepBody_counts (inp : TransplantInput) (st : PassState) (idx L : ℕ) :
    (stepBody inp st idx).counts L
      = if L = (mapping inp idx).length then st.counts L + 1 else st.counts L := rfl

theorem stepBody_copyCount (inp : TransplantInput) (st : PassState) (idx : ℕ) :
    (stepBody inp st idx).copyCount
      = if (mapping inp idx).length = 1 then st.copyCount + 1 else st.copyCount := rfl

theorem stepBody_meanCount (inp : TransplantInput) (st : PassState) (idx : ℕ) :
    (stepBody inp st idx).meanCount
      = if (mapping inp idx).length = 1 then st.meanCount else st.meanCount + 1 := rfl

theorem foldl_embed (inp : TransplantInput) :
    ∀ (n : ℕ) (st : PassState) (i : ℕ),
      (((List.range n).foldl (stepBody inp) st).embed i)
        = if i < n then embedRowOf inp i else st.embed i := by
  intro n
  induction n with
  | zero => intro st i; simp
  | succ n ih =>
    intro st i
    rw [List.range_succ, List.foldl_append, List.foldl_cons, List.foldl_nil,
      stepBody_embed, ih]
    by_cases h : i = n
    · subst h; simp
    · by_cases h2 : i < n
      · simp [h, h2, Nat.lt_succ_of_lt h2]
      · have h3 : ¬ i < n + 1 := by omega
        simp [h, h2, h3]

theorem foldl_head (inp : TransplantInput) :
    ∀ (n : ℕ) (st : PassState) (i : ℕ),
      (((List.range n).foldl (stepBody inp) st).head i)
        = if i < n then headRowOf inp i else st.head i := by
  intro n
  induction n with
  | zero => intro st i; simp
  | succ n ih =>
    intro st i
    rw [List.range_succ, List.foldl_append, List.foldl_cons, List.foldl_nil,
      stepBody_head, ih]
    by_cases h : i = n
    · subst h; simp
    · by_cases h2 : i < n
      · simp [h, h2, Nat.lt_succ_of_lt h2]
      · have h3 : ¬ i < n + 1 := by omega
        simp [h, h2, h3]

theorem foldl_counts (inp : TransplantInput) :
    ∀ (n : ℕ) (st : PassState) (L : ℕ),
      (((List.range n).foldl (stepBody inp) st).counts L)
        = st.counts L
          + ((Finset.range n).filter (fun i => (mapping inp i).length = L)).card := by
  intro n
  induction n with
  | zero => intro st L; simp
  | succ n ih =>
    intro st L
    rw [List.range_succ, List.foldl_append, List.foldl_cons, List.foldl_nil,
      stepBody_counts, ih, Finset.range_succ, Finset.filter_insert]
    have hnot : n ∉ (Finset.range n).filter (fun i => (mapping inp i).length = L) := by
      simp
    by_cases h : L = (mapping inp n).length
    · rw [if_pos h, if_pos h.symm, Finset.card_insert_of_not_mem hnot]
      omega
    · rw [if_neg h, if_neg (fun hc => h hc.symm)]

theorem foldl_copyCount (inp : TransplantInput) :
    ∀ (n : ℕ) (st : PassState),
      (((List.range n).foldl (stepBody inp) st).copyCount)
        = st.copyCount
          + ((Finset.range n).filter (fun i => (mapping inp i).length = 1)).card := by
  intro n
  induction n with
  | zero => intro st; simp
  | succ n ih =>
    intro st
    rw [List.range_succ, List.foldl_append, List.foldl_cons, List.foldl_nil,
      stepBody_copyCount, ih, Finset.range_succ, Finset.filter_insert]
    have hnot : n ∉ (Finset.range n).filter (fun i => (mapping inp i).length = 1) := by
      simp
    by_cases h : (mapping inp n).length = 1
    · rw [if_pos h, if_pos h, Finset.card_insert_of_not_mem hnot]
      omega
    · rw [if_neg h, if_neg h]

theorem foldl_meanCount (inp : TransplantInput) :
    ∀ (n : ℕ) (st : PassState),
      (((List.range n).foldl (stepBody inp) st).meanCount)
        = st.meanCount
          + ((Finset.range n).filter (fun i => ¬ (mapping inp i).length = 1)).card := by
  intro n
  induction n with
  | zero => intro st; simp
  | succ n ih =>
    intro st
    rw [List.range_succ, List.foldl_append, List.foldl_cons, List.foldl_nil,
      stepBody_meanCount, ih, Finset.range_succ, Finset.filter_insert]
    have hnot : n ∉ (Finset.range n).filter (fun i => ¬ (mapping inp i).length = 1) := by
      simp
    by_cases h : (mapping inp n).length = 1
    · rw [if_pos h, if_neg (fun hc => hc h)]
    · rw [if_neg h, if_pos h, Finset.card_insert_of_not_mem hnot]
      omega

theorem runPass_embed (inp : TransplantInput) (i : ℕ) :
    (runPass inp).embed i
      = if i < inp.usedTargetVocabSize then embedRowOf inp i else vzero := by
  rw [runPass, foldl_embed]
  rfl

theorem runPass_head (inp : TransplantInput) (i : ℕ) :
    (runPass inp).head i
      = if i < inp.usedTargetVocabSize then headRowOf inp i else vzero := by
  rw [runPass, foldl_head]
  rfl

theorem runPass_counts (inp : TransplantInput) (L : ℕ) :
    (runPass inp).counts L
      = ((Finset.range inp.usedTargetVocabSize).filter
          (fun i => (mapping inp i).length = L)).card := by
  rw [runPass, foldl_counts]
  simp [initState]

theorem runPass_copyCount (inp : TransplantInput) :
    (runPass inp).copyCount
      = ((Finset.range inp.usedTargetVocabSize).filter
          (fun i => (mapping inp i).length = 1)).card := by
  rw [runPass, foldl_copyCount]
  simp [initState]

theorem runPass_meanCount (inp : TransplantInput) :
    (runPass inp).meanCount
      = ((Finset.range inp.usedTargetVocabSize).filter
          (fun i => ¬ (mapping inp i).length = 1)).card := by
  rw [runPass, foldl_meanCount]
  simp [initState]

/-! ## Helper lemmas about list sums -/

theorem sum_map_eq_sum_range {α : Type} (f : α → ℚ) (d : α) :
    ∀ (l : List α), (l.map f).sum = ∑ k in Finset.range l.length, f (l.getD k d) := by
  intro l
  induction l with
  | nil => simp
  | cons a t ih =>
    rw [List.map_cons, List.sum_cons, ih, List.length_cons, Finset.sum_range_succ']
    simp only [List.getD_cons_succ, List.getD_cons_zero]
    exact add_comm _ _

theorem sum_range_map (f : ℕ → ℚ) :
    ∀ (n : ℕ), ((List.range n).map f).sum = ∑ k in Finset.range n, f k := by
  intro n
  induction n with
  | zero => simp
  | succ n ih =>
    rw [List.range_succ, List.map_append, List.sum_append, ih, Finset.sum_range_succ]
    simp

theorem sum_map_zip_range (g : ℚ × Vec → ℚ) :
    ∀ (v : List Vec) (f : ℕ → ℚ),
      ((((List.range v.length).map f).zip v).map g).sum
        = ∑ k in Finset.range v.length, g (f k, v.getD k vzero) := by
  intro v
  induction v with
  | nil => intro f; simp
  | cons a t ih =>
    intro f
    rw [List.length_cons, List.range_succ_eq_map, List.map_cons, List.map_map,
      List.zip_cons_cons, List.map_cons, List.sum_cons]
    have hcomp : List.map (f ∘ Nat.succ) (List.range t.length)
        = List.map (fun k => f (k + 1)) (List.range t.length) := by
      simp [Function.comp]
    rw [hcomp, ih (fun k => f (k + 1)), Finset.sum_range_succ']
    simp only [List.getD_cons_succ, List.getD_cons_zero]
    exact add_comm _ _

theorem getD_map_lt {α β : Type} (f : α → β) (b : β) (d : α) :
    ∀ (l : List α) (k : ℕ), k < l.length → (l.map f).getD k b = f (l.getD k d) := by
  intro l
  induction l with
  | nil => intro k h; simp at h
  | cons a t ih =>
    intro k h
    cases k with
    | zero => simp
    | succ k =>
      simp only [List.map_cons, List.getD_cons_succ]
      exact ih k (by simpa using h)

theorem headD_map {α β : Type} (f : α → β) (b : β) (d : α) (l : List α) (h : l ≠ []) :
    (l.map f).headD b = f (l.headD d) := by
  cases l with
  | nil => exact absurd rfl h
  | cons a t => rfl

theorem getLastD_eq_getLast {α : Type} (d : α) (l : List α) (h : l ≠ []) :
    l.getLastD d = l.getLast h := by
  rw [List.getLastD_eq_getLast?, List.getLast?_eq_getLast l h, Option.getD_some]

/-! ## Case analysis of `compute_front_loaded_mean` -/

/-- Single-id mappings and decay 0 return the first row verbatim
(source lines 143-144). -/
theorem cfl_first (v : List Vec) (d : ℚ) (h : v.length = 1 ∨ d = 0) :
    compute_front_loaded_mean v d = v.headD vzero := by
  rw [compute_front_loaded_mean, if_pos h]

/-- Decay 1 returns the arithmetic mean (source lines 145-146). -/
theorem cfl_decay_one (v : List Vec) (h1 : v.length ≠ 1) (j : ℕ) :
    compute_front_loaded_mean v 1 j
      = (∑ k in Finset.range v.length, v.getD k vzero j) / (v.length : ℚ) := by
  rw [compute_front_loaded_mean, if_neg (by push_neg; exact ⟨h1, one_ne_zero⟩), if_pos rfl]
  show (List.map (fun w => w j) v).sum / (v.length : ℚ) = _
  rw [sum_map_eq_sum_range (fun w => w j) vzero v]

/-- The general branch is the normalised geometric-decay weighted average
(source lines 147-153). -/
theorem cfl_general (v : List Vec) (d : ℚ) (hd0 : d ≠ 0) (hd1 : d ≠ 1)
    (h1 : v.length ≠ 1) (j : ℕ) :
    compute_front_loaded_mean v d j
      = (∑ k in Finset.range v.length, d ^ k * v.getD k vzero j)
        / (∑ k in Finset.range v.length, d ^ k) := by
  rw [compute_front_loaded_mean, if_neg (by push_neg; exact ⟨h1, hd0⟩), if_neg hd1]
  show (List.map (fun w => w j)
      ((((List.range v.length).map (fun i => d ^ i)).zip v).map (fun p => vsmul p.1 p.2))).sum
    / (((List.range v.length).map (fun i => d ^ i)).sum) = _
  rw [List.map_map]
  have hnum : (List.map ((fun w => w j) ∘ fun p : ℚ × Vec => vsmul p.1 p.2)
        ((((List.range v.length).map (fun i => d ^ i)).zip v))).sum
      = ∑ k in Finset.range v.length, d ^ k * v.getD k vzero j :=
    sum_map_zip_range (fun p => p.1 * p.2 j) v (fun i => d ^ i)
  rw [hnum, sum_range_map (fun i => d ^ i) v.length]

/-! ## Claim theorems -/

/-- **C1** (code-bug evidence).  The claim says configuration extraction
reads each donor quantity from its own named field, with only the absence
of a required field being fatal.  The code instead, for a donor
configuration nested under `text_config`, assigns the nested `hidden_size`
to `donor_vocab_size` (source line 172) and never binds
`donor_hidden_size`, so a fully-populated nested donor configuration
aborts with a `NameError`; the flat path behaves as claimed, and a flat
configuration missing `hidden_size` fails with the assertion. -/
theorem donor_config_cross_substitution :
    donorSizes { vocab_size := none, hidden_size := none,
                 text_config := some { vocab_size := some 152064, hidden_size := some 3584 },
                 tie_word_embeddings := none }
      = Except.error "NameError: name donor_hidden_size is not defined"
    ∧ donorSizes { vocab_size := some 152064, hidden_size := some 3584,
                   text_config := none, tie_word_embeddings := none }
      = Except.ok (152064, 3584)
    ∧ donorSizes { vocab_size := some 152064, hidden_size := none,
                   text_config := none, tie_word_embeddings := none }
      = Except.error "AssertionError: hidden_size not found in source model config" :=
  ⟨rfl, rfl, rfl⟩

/-- **C2**: for every target id `i` below the used vocabulary size, with
non-empty mapping `m` (whether `m` comes from the override registry or
from the decode-then-encode path), the synthesized input-embedding row for
`i` is exactly the donor input-embedding row of the last id of `m`. -/
theorem embedding_row_is_donor_row_of_last_id (inp : TransplantInput) (i : ℕ)
    (hi : i < inp.usedTargetVocabSize) (hne : mapping inp i ≠ []) :
    (runPass inp).embed i = inp.donorEmbed ((mapping inp i).getLast hne) := by
  rw [runPass_embed, if_pos hi]
  show inp.donorEmbed ((mapping inp i).getLastD 0) = _
  rw [getLastD_eq_getLast 0 (mapping inp i) hne]

/-- Witness for C2 on the concrete scenario: target id 2 maps to `[0, 1]`
and its embedding row is the donor row of id 1. -/
theorem embedding_row_is_donor_row_of_last_id_witness :
    2 < exampleInput.usedTargetVocabSize ∧ mapping exampleInput 2 ≠ [] ∧
    (runPass exampleInput).embed 2
      = exampleInput.donorEmbed ((mapping exampleInput 2).getLast (by decide)) :=
  ⟨by decide, by decide,
    embedding_row_is_donor_row_of_last_id exampleInput 2 (by decide) (by decide)⟩

/-- **C5** (code-bug evidence).  Manual-override processing aborts exactly
when the target string encodes to other than one id or the donor string
encodes to zero ids, and otherwise accepts the override; but in the
zero-donor-ids case the abort carries no offending id/string: the assert
message of source line 251 interpolates the unbound name `idx`, so the
program raises a bare `NameError` instead of the claimed contextual
error.  The non-single-target abort does carry the offending string. -/
theorem manual_override_validation_eval :
    processOverride (fun s => if s = "X" then [7] else [1, 2]) (fun _ => []) "X" "Y"
      = OverrideResult.errNameError "idx"
    ∧ processOverride (fun s => if s = "X" then [7] else [1, 2]) (fun _ => [3]) "AB" "Z"
      = OverrideResult.errTargetNotSingle "AB" 2
    ∧ processOverride (fun s => if s = "X" then [7] else [1, 2]) (fun _ => [3, 4]) "X" "W"
      = OverrideResult.ok 7 [3, 4] :=
  ⟨by decide, by decide, by decide⟩

/-- **C6**: whenever the used target vocabulary size is below the declared
one, every row of both output matrices with index in the declared-but-
unused range stays all-zero after the pass. -/
theorem unused_tail_rows_are_zero (inp : TransplantInput)
    (hlt : inp.usedTargetVocabSize < inp.targetVocabSize) (i : ℕ)
    (h1 : inp.usedTargetVocabSize ≤ i) (h2 : i < inp.targetVocabSize) :
    (runPass inp).embed i = vzero ∧ (runPass inp).head i = vzero := by
  have hni : ¬ i < inp.usedTargetVocabSize := by omega
  exact ⟨by rw [runPass_embed, if_neg hni], by rw [runPass_head, if_neg hni]⟩

/-- **C3**: the Policy A head row of a target id with non-empty mapping
`m` of length `n`: a copy of the donor head row of `m[0]` when `n = 1` or
the decay is 0; the arithmetic mean of the donor head rows of `m` when the
decay is 1; and otherwise the geometric-decay weighted average whose
`k`-th weight is `decay ^ k`, normalised by the sum of the weights (so for
decay one-half and a three-id mapping the weights are proportional to
1, 1/2, 1/4). -/
theorem head_row_policy_a (inp : TransplantInput) (i : ℕ)
    (hi : i < inp.usedTargetVocabSize) (hne : mapping inp i ≠ []) :
    (((mapping inp i).length = 1 ∨ inp.decay = 0) →
        (runPass inp).head i = inp.donorHead ((mapping inp i).headD 0))
    ∧ (inp.decay = 1 → ∀ j : ℕ, (runPass inp).head i j
        = (∑ k in Finset.range (mapping inp i).length,
            inp.donorHead ((mapping inp i).getD k 0) j)
          / ((mapping inp i).length : ℚ))
    ∧ (inp.decay ≠ 0 → inp.decay ≠ 1 → ∀ j : ℕ, (runPass inp).head i j
        = (∑ k in Finset.range (mapping inp i).length,
            inp.decay ^ k * inp.donorHead ((mapping inp i).getD k 0) j)
          / (∑ k in Finset.range (mapping inp i).length, inp.decay ^ k)) := by
  have hhead : (runPass inp).head i = headRowOf inp i := by
    rw [runPass_head, if_pos hi]
  have hgetD : ∀ j : ℕ, ∀ k ∈ Finset.range (mapping inp i).length,
      ((mapping inp i).map inp.donorHead).getD k vzero j
        = inp.donorHead ((mapping inp i).getD k 0) j := by
    intro j k hk
    rw [getD_map_lt inp.donorHead vzero 0 _ k (Finset.mem_range.mp hk)]
  refine ⟨?_, ?_, ?_⟩
  · intro hcase
    rw [hhead, headRowOf]
    by_cases hlen : (mapping inp i).length = 1
    · rw [if_pos hlen]
    · have hd0 : inp.decay = 0 := by
        rcases hcase with h | h
        · exact absurd h hlen
        · exact h
      rw [if_neg hlen, hd0, cfl_first _ _ (Or.inr rfl),
        headD_map inp.donorHead vzero 0 _ hne]
  · intro hd1 j
    rw [hhead, headRowOf]
    by_cases hlen : (mapping inp i).length = 1
    · rw [if_pos hlen]
      obtain ⟨a, ha⟩ := List.length_eq_one.mp hlen
      rw [ha]
      simp
    · rw [if_neg hlen, hd1,
        cfl_decay_one _ (by rwa [List.length_map]) j, List.length_map,
        Finset.sum_congr rfl (hgetD j)]
  · intro hd0 hd1 j
    rw [hhead, headRowOf]
    by_cases hlen : (mapping inp i).length = 1
    · rw [if_pos hlen]
      obtain ⟨a, ha⟩ := List.length_eq_one.mp hlen
      rw [ha]
      simp
    · rw [if_neg hlen,
        cfl_general _ inp.decay hd0 hd1 (by rwa [List.length_map]) j, List.length_map,
        Finset.sum_congr rfl (fun k hk => by rw [hgetD j k hk])]

/-- Witness for C3 on the decay-one-half, three-id-mapping instance of the
spec scenario. -/
theorem head_row_policy_a_witness :
    2 < exampleThreeInput.usedTargetVocabSize ∧ mapping exampleThreeInput 2 ≠ [] ∧
    exampleThreeInput.decay ≠ 0 ∧ exampleThreeInput.decay ≠ 1 ∧
    (runPass exampleThreeInput).head 2 0
      = (∑ k in Finset.range (mapping exampleThreeInput 2).length,
          exampleThreeInput.decay ^ k
            * exampleThreeInput.donorHead ((mapping exampleThreeInput 2).getD k 0) 0)
        / (∑ k in Finset.range (mapping exampleThreeInput 2).length,
            exampleThreeInput.decay ^ k) :=
  ⟨by decide, by decide, by norm_num [exampleThreeInput, exampleInput],
    by norm_num [exampleThreeInput, exampleInput],
    (head_row_policy_a exampleThreeInput 2 (by decide) (by decide)).2.2
      (by norm_num [exampleThreeInput, exampleInput])
      (by norm_num [exampleThreeInput, exampleInput]) 0⟩

/-- Witness for C6: the scenario declares 5 target ids but uses 3; row 3 of
both outputs is zero. -/
theorem unused_tail_rows_are_zero_witness :
    exampleInput.usedTargetVocabSize < exampleInput.targetVocabSize ∧
    ((runPass exampleInput).embed 3 = vzero ∧ (runPass exampleInput).head 3 = vzero) :=
  ⟨by decide, unused_tail_rows_are_zero exampleInput (by decide) 3 (by decide) (by decide)⟩

/-- **C4**: a target id registered in the override registry uses the
registered donor-id sequence verbatim, and neither its mapping nor either
of its synthesized rows changes under any replacement of the target decode
and donor encode capabilities — the decode-then-encode path never
influences an overridden id. -/
theorem override_precedence_verbatim (inp : TransplantInput) (t : ℕ) (m : List ℕ)
    (h : inp.overrideMap t = some m) :
    mapping inp t = m
    ∧ ∀ (dec : ℕ → String) (enc : String → List ℕ),
        mapping { inp with targetDecode := dec, donorEncode := enc } t = m
        ∧ (runPass { inp with targetDecode := dec, donorEncode := enc }).embed t
            = (runPass inp).embed t
        ∧ (runPass { inp with targetDecode := dec, donorEncode := enc }).head t
            = (runPass inp).head t := by
  have h1 : mapping inp t = m := by rw [mapping, h]
  refine ⟨h1, fun dec enc => ?_⟩
  have h2 : mapping { inp with targetDecode := dec, donorEncode := enc } t = m := by
    rw [mapping]
    show (match inp.overrideMap t with
      | some encoded => encoded
      | none => enc (dec t)) = m
    rw [h]
  have hused : ({ inp with targetDecode := dec, donorEncode := enc }
      : TransplantInput).usedTargetVocabSize = inp.usedTargetVocabSize := rfl
  refine ⟨h2, ?_, ?_⟩
  · rw [runPass_embed, runPass_embed, hused]
    by_cases ht : t < inp.usedTargetVocabSize
    · rw [if_pos ht, if_pos ht, embedRowOf, embedRowOf, h1, h2]
    · rw [if_neg ht, if_neg ht]
  · rw [runPass_head, runPass_head, hused]
    by_cases ht : t < inp.usedTargetVocabSize
    · rw [if_pos ht, if_pos ht, headRowOf, headRowOf, h1, h2]
    · rw [if_neg ht, if_neg ht]

/-- Witness for C4: in the override scenario, target id 2 keeps its
registered single-id mapping `[2]` although its natural re-encoding would
be `[0, 1]`, and both its rows ignore a replaced encode capability. -/
theorem override_precedence_verbatim_witness :
    exampleOverrideInput.overrideMap 2 = some [2]
    ∧ exampleOverrideInput.donorEncode
        (exampleOverrideInput.targetDecode 2) = [0, 1]
    ∧ mapping exampleOverrideInput 2 = [2]
    ∧ mapping { exampleOverrideInput with
          targetDecode := fun _ => "b", donorEncode := fun _ => [1] } 2 = [2] :=
  ⟨by decide, by decide,
    (override_precedence_verbatim exampleOverrideInput 2 [2] (by decide)).1,
    ((override_precedence_verbatim exampleOverrideInput 2 [2] (by decide)).2
      (fun _ => "b") (fun _ => [1])).1⟩

/-- **C7**: the transplant pass is a pure function of its inputs — two runs
over inputs whose sizes, matrices, tokenizer capabilities, override
registry and decay factor agree produce identical output embedding and
head matrices. -/
theorem transplant_deterministic (inp inp2 : TransplantInput)
    (h1 : inp.targetVocabSize = inp2.targetVocabSize)
    (h2 : inp.usedTargetVocabSize = inp2.usedTargetVocabSize)
    (h3 : ∀ r, inp.donorEmbed r = inp2.donorEmbed r)
    (h4 : ∀ r, inp.donorHead r = inp2.donorHead r)
    (h5 : ∀ i, inp.targetDecode i = inp2.targetDecode i)
    (h6 : ∀ s, inp.donorEncode s = inp2.donorEncode s)
    (h7 : ∀ t, inp.overrideMap t = inp2.overrideMap t)
    (h8 : inp.decay = inp2.decay) :
    (runPass inp).embed = (runPass inp2).embed
    ∧ (runPass inp).head = (runPass inp2).head := by
  have he : inp = inp2 := by
    obtain ⟨a1, a2, a3, a4, a5, a6, a7, a8⟩ := inp
    obtain ⟨b1, b2, b3, b4, b5, b6, b7, b8⟩ := inp2
    simp only [TransplantInput.mk.injEq]
    exact ⟨h1, h2, funext h3, funext h4, funext h5, funext h6, funext h7, h8⟩
  rw [he]
  exact ⟨rfl, rfl⟩

/-- Witness for C7 at the concrete scenario input. -/
theorem transplant_deterministic_witness :
    (∀ t, exampleInput.overrideMap t = exampleInput.overrideMap t)
    ∧ (runPass exampleInput).embed = (runPass exampleInput).embed
    ∧ (runPass exampleInput).head = (runPass exampleInput).head :=
  ⟨fun _ => rfl,
    transplant_deterministic exampleInput exampleInput rfl rfl (fun _ => rfl)
      (fun _ => rfl) (fun _ => rfl) (fun _ => rfl) (fun _ => rfl) rfl⟩

/-- **C8**: one automatic special-token role registers the single-element
mapping `[donor_id]` exactly when both resolved role ids are present and
the target id is not yet registered; each other case leaves the registry
untouched (so the id stays governed by the default re-encoding path) and
reports its named, non-fatal skip reason. -/
theorem auto_special_token_alignment (t d : TokSpecial) (om : List (ℕ × List ℕ)) :
    (∀ tid did, resolveSpecial t = some tid → resolveSpecial d = some did →
        om.lookup tid = none →
        autoStep t d om = (om ++ [(tid, [did])], AutoResult.registered tid did))
    ∧ (resolveSpecial t = none → autoStep t d om = (om, AutoResult.targetMissing))
    ∧ (∀ tid, resolveSpecial t = some tid → resolveSpecial d = none →
        autoStep t d om = (om, AutoResult.donorMissing))
    ∧ (∀ tid did mp, resolveSpecial t = some tid → resolveSpecial d = some did →
        om.lookup tid = some mp →
        autoStep t d om = (om, AutoResult.alreadyMapped tid)) := by
  refine ⟨?_, ?_, ?_, ?_⟩
  · intro tid did ht hd hl
    simp [autoStep, ht, hd, hl]
  · intro ht
    simp [autoStep, ht]
  · intro tid ht hd
    simp [autoStep, ht, hd]
  · intro tid did mp ht hd hl
    simp [autoStep, ht, hd, hl]

/-- Witness for C8: a target bos id resolved from the tokenizer attribute
and a donor bos id resolved from the configuration fallback register the
single-element mapping into an empty registry. -/
theorem auto_special_token_alignment_witness :
    resolveSpecial ⟨some 2, none⟩ = some 2
    ∧ resolveSpecial ⟨none, some 5⟩ = some 5
    ∧ ([] : List (ℕ × List ℕ)).lookup 2 = none
    ∧ autoStep ⟨some 2, none⟩ ⟨none, some 5⟩ []
        = ([(2, [5])], AutoResult.registered 2 5) :=
  ⟨rfl, rfl, rfl,
    (auto_special_token_alignment ⟨some 2, none⟩ ⟨none, some 5⟩ []).1 2 5 rfl rfl rfl⟩

/-- **C9**: after a completed pass (all mappings non-empty), the histogram
entry for length `L` counts exactly the target ids below the used size
whose mapping has length `L`; the copy counter counts the single-id
mappings, the mean counter the multi-id mappings; together they cover
every id below the used size exactly once, so the inferred zero count
`declared - copy - mean` equals `declared - used` and accounts exactly
for the declared-but-unused ids. -/
theorem statistics_accounting (inp : TransplantInput)
    (hne : ∀ i, i < inp.usedTargetVocabSize → mapping inp i ≠ []) :
    (∀ L, (runPass inp).counts L
        = ((Finset.range inp.usedTargetVocabSize).filter
            (fun i => (mapping inp i).length = L)).card)
    ∧ (runPass inp).copyCount
        = ((Finset.range inp.usedTargetVocabSize).filter
            (fun i => (mapping inp i).length = 1)).card
    ∧ (runPass inp).meanCount
        = ((Finset.range inp.usedTargetVocabSize).filter
            (fun i => 2 ≤ (mapping inp i).length)).card
    ∧ (runPass inp).copyCount + (runPass inp).meanCount = inp.usedTargetVocabSize
    ∧ inp.targetVocabSize - ((runPass inp).copyCount + (runPass inp).meanCount)
        = inp.targetVocabSize - inp.usedTargetVocabSize := by
  have hfilter : (Finset.range inp.usedTargetVocabSize).filter
        (fun i => ¬ (mapping inp i).length = 1)
      = (Finset.range inp.usedTargetVocabSize).filter
        (fun i => 2 ≤ (mapping inp i).length) := by
    apply Finset.filter_congr
    intro i hi
    have hlen : (mapping inp i).length ≠ 0 := by
      intro h0
      exact hne i (Finset.mem_range.mp hi) (List.length_eq_zero.mp h0)
    omega
  have hcopymean : (runPass inp).copyCount + (runPass inp).meanCount
      = inp.usedTargetVocabSize := by
    rw [runPass_copyCount, runPass_meanCount,
      Finset.filter_card_add_filter_neg_card_eq_card, Finset.card_range]
  refine ⟨runPass_counts inp, runPass_copyCount inp, ?_, hcopymean, by rw [hcopymean]⟩
  rw [runPass_meanCount, hfilter]

/-- Witness for C9 at the scenario input: two single-id mappings, one
two-id mapping, and the two trailing declared slots inferred as zeros. -/
theorem statistics_accounting_witness :
    (∀ i, i < exampleInput.usedTargetVocabSize → mapping exampleInput i ≠ []) ∧
    (runPass exampleInput).copyCount + (runPass exampleInput).meanCount
      = exampleInput.usedTargetVocabSize :=
  ⟨by decide, (statistics_accounting exampleInput (by decide)).2.2.2.1⟩

/-- **C10**: when the donor configuration carries
`tie_word_embeddings = true`, the head matrix the pass reads is the donor
input-embedding matrix — the whole pass is independent of any separate
head matrix — and the saved configuration's `tie_word_embeddings` is
forced to `false` whenever the field exists. -/
theorem tied_head_untied_output (declared used : ℕ) (embedW headW headW2 : ℕ → Vec)
    (dec : ℕ → String) (enc : String → List ℕ) (om : ℕ → Option (List ℕ)) (d : ℚ)
    (cfg : ModelConfig) (hcfg : cfg.tie_word_embeddings = some true) :
    (mkTransplantInput declared used embedW headW (donorTied cfg) dec enc om d).donorHead
        = embedW
    ∧ runPass (mkTransplantInput declared used embedW headW (donorTied cfg) dec enc om d)
        = runPass (mkTransplantInput declared used embedW headW2 (donorTied cfg) dec enc om d)
    ∧ (∀ b, outputTieFlag (some b) = some false)
    ∧ outputTieFlag none = none := by
  have ht : donorTied cfg = true := by rw [donorTied, hcfg]; rfl
  refine ⟨?_, ?_, fun b => rfl, rfl⟩
  · show donorLmHeadOf (donorTied cfg) embedW headW = embedW
    rw [ht, donorLmHeadOf, if_pos rfl]
  · rw [ht]
    show runPass (mkTransplantInput declared used embedW headW true dec enc om d) = _
    have hsame : mkTransplantInput declared used embedW headW true dec enc om d
        = mkTransplantInput declared used embedW headW2 true dec enc om d := rfl
    rw [hsame]

/-- Witness for C10 at a concrete tied donor configuration. -/
theorem tied_head_untied_output_witness :
    exTiedConfig.tie_word_embeddings = some true
    ∧ (mkTransplantInput 3 3 exDonorEmbed exDonorHead (donorTied exTiedConfig)
        exTargetDecode exDonorEncode (fun _ => none) (1 / 2)).donorHead = exDonorEmbed :=
  ⟨rfl,
    (tied_head_untied_output 3 3 exDonorEmbed exDonorHead exDonorHead exTargetDecode
      exDonorEncode (fun _ => none) (1 / 2) exTiedConfig rfl).1⟩

end TransplantVocab
